import Mathlib

/-!
Verification of the arbiter program (`arbiter.go`).

The arbiter referees matches of a two-player board game between two external
programs and aggregates the results of a round-robin tournament.  We give a
shallow embedding of its core:

* `runMatch` (the per-match turn loop with the failure/fallback policy),
* the spawn / shutdown handling of the two player slots,
* `runTournament` (the matchup enumeration),
* the statistics aggregation and the two report modes in `main`.

External, non-deterministic inputs (the game engine behind the `GameState`
interface, the bytes read from the player processes, the success of pipe
writes, the stream of pseudo-random numbers, the success of process spawns)
are passed in as explicit oracle parameters, so every function here is a pure,
executable translation of the corresponding Go code.  Wall-clock durations are
modelled as rationals.  A Go `panic` (process abort) is modelled as `none` in
an `Option` result.
-/

namespace Arbiter

/-- A homogeneous pair, modelling the `[2]T` arrays of the Go code, indexed by
a player slot number `Fin 2`. -/
structure Pair (α : Type) where
  fst : α
  snd : α
deriving DecidableEq

/-- Read the component of a `[2]T` array at index `i`. -/
def Pair.get {α : Type} (x : Pair α) (i : Fin 2) : α :=
  if i.val = 0 then x.fst else x.snd

/-- Write the component of a `[2]T` array at index `i`. -/
def Pair.set {α : Type} (x : Pair α) (i : Fin 2) (a : α) : Pair α :=
  if i.val = 0 then ⟨a, x.snd⟩ else ⟨x.fst, a⟩

/-- The opponent index `1 - p` used throughout `runMatch`. -/
def opp (i : Fin 2) : Fin 2 := ⟨1 - i.val, by omega⟩

/-- The game-engine capability set consumed by the arbiter: the `Game` and
`GameState` interfaces of `arbiter.go` (`Over`, `Next`, `ListMoves`,
`Execute`, `Scores`, `ParseMove`, and the `fmt.Stringer` conversion of a
move).  Moves are represented by `Nat` codes; `exec` returns `none` exactly
when Go's `Execute` returns `false` (move rejected, state unchanged). -/
structure GameDef (σ : Type) where
  over : σ → Bool
  next : σ → Fin 2
  listMoves : σ → List Nat
  exec : σ → Nat → Option σ
  scores : σ → Int × Int
  parseMove : String → Option Nat
  moveStr : Nat → String

/-- The oracle describing one external player process, as observed by
`runMatch`: whether `runPlayer` succeeded, the outcome of the k-th
`ReadString` on its stdout (elapsed wall-clock time, and `none` for a read
error or the raw line including the trailing newline), and whether the k-th
move line forwarded to its stdin is written without error. -/
structure PlayerEnv where
  spawnOk : Bool
  reads : Nat → ℚ × Option String
  writes : Nat → Bool

/-- The mutable state of one `runMatch` invocation: the engine state, the
cached `over` flag, and per-slot `result.failed` / `result.time` together
with cursors into the read/write/random oracles. -/
structure MatchSt (σ : Type) where
  gs : σ
  over : Bool
  failed : Pair Bool
  time : Pair ℚ
  readIx : Pair Nat
  writeIx : Pair Nat
  rix : Nat
deriving DecidableEq

/-- Lines 171-176 of `arbiter.go`: after a turn, if a move was produced
(`moveStr != ""`), the opponent has not failed, and the game is not over,
forward the move text to the opponent; a write error marks the *opponent*
(the recipient) as failed. -/
def forwardStep {σ : Type} (env : Pair PlayerEnv) (p : Fin 2) (s : MatchSt σ)
    (moveStr : String) : MatchSt σ :=
  if moveStr ≠ "" ∧ s.failed.get (opp p) = false ∧ s.over = false then
    let k := s.writeIx.get (opp p)
    let s1 := { s with writeIx := s.writeIx.set (opp p) (k + 1) }
    if (env.get (opp p)).writes k then s1
    else { s1 with failed := s1.failed.set (opp p) true }
  else s

/-- Lines 140-148 of `arbiter.go`: the mover has already failed, so a move is
drawn from the legal-move list at a pseudo-random index and applied.
`rand.Intn(0)` on an empty move list panics, and an `Execute` rejection hits
`panic("Invalid move generated!")`; both aborts are modelled as `none`.
Returns the updated state and the canonical text of the applied move. -/
def stepFallback {σ : Type} (g : GameDef σ) (rng : Nat → Nat) (s : MatchSt σ) :
    Option (MatchSt σ × String) :=
  let moves := g.listMoves s.gs
  if moves.length = 0 then none
  else
    let move := moves.getD (rng s.rix % moves.length) 0
    let s1 := { s with rix := s.rix + 1 }
    match g.exec s1.gs move with
    | none => none
    | some gs2 => some ({ s1 with gs := gs2, over := g.over gs2 }, g.moveStr move)

/-- Lines 150-169 of `arbiter.go`: read a line from the mover (always adding
the elapsed time to its clock), strip the trailing newline, parse it and try
to execute it; any of read error, parse error, or rejection by `Execute`
marks the mover as failed and produces no move (`moveStr` stays `""`). -/
def stepRead {σ : Type} (g : GameDef σ) (env : Pair PlayerEnv) (p : Fin 2)
    (s : MatchSt σ) : MatchSt σ × String :=
  let k := s.readIx.get p
  let r := (env.get p).reads k
  let s1 := { s with
    time := s.time.set p (s.time.get p + r.1),
    readIx := s.readIx.set p (k + 1) }
  match r.2 with
  | none => ({ s1 with failed := s1.failed.set p true }, "")
  | some rawLine =>
    let line := rawLine.dropRight 1
    match g.parseMove line with
    | none => ({ s1 with failed := s1.failed.set p true }, "")
    | some move =>
      match g.exec s1.gs move with
      | none => ({ s1 with failed := s1.failed.set p true }, "")
      | some gs2 => ({ s1 with gs := gs2, over := g.over gs2 }, g.moveStr move)

/-- One iteration of the `for !over` loop of `runMatch` (lines 137-177):
ask the engine who moves, take the fallback branch if that slot already
failed, otherwise read a move from the process, and finally run the
forwarding step. -/
def step {σ : Type} (g : GameDef σ) (env : Pair PlayerEnv) (rng : Nat → Nat)
    (s : MatchSt σ) : Option (MatchSt σ) :=
  let p := g.next s.gs
  if s.failed.get p then
    (stepFallback g rng s).map (fun x => forwardStep env p x.1 x.2)
  else
    let x := stepRead g env p s
    some (forwardStep env p x.1 x.2)

/-- The `for !over` loop of `runMatch`, with explicit fuel; `none` is either
an engine-contract abort (a `panic` inside an iteration) or fuel exhaustion. -/
def loop {σ : Type} (g : GameDef σ) (env : Pair PlayerEnv) (rng : Nat → Nat) :
    Nat → MatchSt σ → Option (MatchSt σ)
  | 0, _ => none
  | fuel + 1, s => if s.over then some s else (step g env rng s).bind (loop g env rng fuel)

/-- Lines 113-136 of `arbiter.go`: the spawn loop and state creation.  A slot
whose `runPlayer` call fails starts with `failed = true`; the engine state is
created afterwards and the `over` flag cached. -/
def initState {σ : Type} (g : GameDef σ) (start : σ) (env : Pair PlayerEnv) :
    MatchSt σ :=
  { gs := start
    over := g.over start
    failed := ⟨!env.fst.spawnOk, !env.snd.spawnOk⟩
    time := ⟨0, 0⟩
    readIx := ⟨0, 0⟩
    writeIx := ⟨0, 0⟩
    rix := 0 }

/-- The sentinel lines written during the spawn loop (lines 120-133): inside
the success branch of slot `i`, and only for `i == 0`, the line `Start` is
written to that slot's stdin. -/
def initTrace (env : Pair PlayerEnv) : List (Fin 2 × String) :=
  (List.finRange 2).flatMap (fun i =>
    if (env.get i).spawnOk then (if i.val = 0 then [(i, "Start")] else []) else [])

/-- Lines 179-188 of `arbiter.go`: the shutdown loop writes `Quit` to each
slot's stdin and closes it, then waits for each process.  `writers[i]` is the
nil `io.WriteCloser` interface when the spawn of slot `i` failed, and calling
`Write` through a nil interface panics; that abort is modelled as `none`.
On success, the returned list records which slots were released, in order. -/
def quitWriters (env : Pair PlayerEnv) : Option (List (Fin 2)) :=
  (List.finRange 2).foldl
    (fun acc i => acc.bind (fun l =>
      if (env.get i).spawnOk then some (l ++ [i]) else none))
    (some [])

/-- Lines 193-202 of `arbiter.go`: the competition-points computation.  A
failed player keeps 0 points; a non-failed player gets 1, plus 1 more when
its score strictly exceeds the opponent's. -/
def computePoints (failed : Pair Bool) (score : Pair Int) : Pair Nat :=
  let pts := fun (i : Fin 2) =>
    if failed.get i then 0
    else 1 + (if score.get i > score.get (opp i) then 1 else 0)
  ⟨pts 0, pts 1⟩

/-- Lines 256-300 of `arbiter.go`: the matchup enumeration of
`runTournament` — for every round, an outer loop over the first-mover index
`i` and an inner loop over the opponent index `j`, skipping `i == j`.  Each
produced pair `(i, j)` stands for one `runMatch` invocation with `i` moving
first. -/
def tournamentPairs (rounds n : Nat) : List (Nat × Nat) :=
  (List.range rounds).flatMap (fun _ =>
    (List.range n).flatMap (fun i =>
      ((List.range n).filter (fun j => i ≠ j)).map (fun j => (i, j))))

/-- The matchups actually run: `firstOnly` (the `-single` flag) breaks out of
all three loops right after the first match (`break outermost`). -/
def tournamentMatches (rounds n : Nat) (firstOnly : Bool) : List (Nat × Nat) :=
  if firstOnly then (tournamentPairs rounds n).take 1 else tournamentPairs rounds n

/-- The `Result` struct of `arbiter.go`. -/
structure MResult where
  player : Pair Nat
  score : Pair Int
  failed : Pair Bool
  points : Pair Nat
  time : Pair ℚ
deriving DecidableEq

/-- The whole of `runMatch`: spawn both players, run the turn loop, run the
shutdown loop (which panics when a spawn failed, see `quitWriters`), read the
final scores and compute the points.  `none` models a process abort (or fuel
exhaustion in the loop). -/
def runMatch {σ : Type} (g : GameDef σ) (start : σ) (players : Pair Nat)
    (env : Pair PlayerEnv) (rng : Nat → Nat) (fuel : Nat) : Option MResult :=
  match loop g env rng fuel (initState g start env) with
  | none => none
  | some s =>
    match quitWriters env with
    | none => none
    | some _ =>
      let sc := g.scores s.gs
      some { player := players
             score := ⟨sc.1, sc.2⟩
             failed := s.failed
             points := computePoints s.failed ⟨sc.1, sc.2⟩
             time := s.time }

/-- The per-player statistics arrays of `main` (lines 354-366), as functions
from the 0-based player index. -/
structure Stats where
  totalPoints : Nat → Nat
  gamesWon : Nat → Nat
  gamesTied : Nat → Nat
  gamesLost : Nat → Nat
  gamesFailed : Nat → Nat
  timeUsed : Nat → ℚ
  timeMax : Nat → ℚ
  winLoss : Nat → Nat → Nat
  pairScore : Nat → Nat → Int

/-- All statistics start at zero (`make` zero-initialises every array). -/
def emptyStats : Stats :=
  { totalPoints := fun _ => 0
    gamesWon := fun _ => 0
    gamesTied := fun _ => 0
    gamesLost := fun _ => 0
    gamesFailed := fun _ => 0
    timeUsed := fun _ => 0
    timeMax := fun _ => 0
    winLoss := fun _ _ => 0
    pairScore := fun _ _ => 0 }

/-- Lines 368-390 of `arbiter.go`: the body of the statistics loop for side
`i` of one match result: points are accumulated, the failed counter follows
`failed[i]`, and the win/tie/loss counters and the head-to-head `winLoss`
matrix are driven purely by comparing `score[i]` with `score[1-i]`. -/
def updSide (st : Stats) (r : MResult) (i : Fin 2) : Stats :=
  let player := r.player.get i
  let oppIdx := r.player.get (opp i)
  { totalPoints := fun p =>
      if p = player then st.totalPoints p + r.points.get i else st.totalPoints p
    gamesWon := fun p =>
      if p = player ∧ r.score.get i > r.score.get (opp i)
      then st.gamesWon p + 1 else st.gamesWon p
    gamesTied := fun p =>
      if p = player ∧ r.score.get i = r.score.get (opp i)
      then st.gamesTied p + 1 else st.gamesTied p
    gamesLost := fun p =>
      if p = player ∧ r.score.get i < r.score.get (opp i)
      then st.gamesLost p + 1 else st.gamesLost p
    gamesFailed := fun p =>
      if p = player ∧ r.failed.get i = true
      then st.gamesFailed p + 1 else st.gamesFailed p
    timeUsed := fun p =>
      if p = player then st.timeUsed p + r.time.get i else st.timeUsed p
    timeMax := fun p =>
      if p = player ∧ r.time.get i > st.timeMax p
      then r.time.get i else st.timeMax p
    winLoss := fun p q =>
      if p = player ∧ q = oppIdx ∧ r.score.get i > r.score.get (opp i)
      then st.winLoss p q + 1 else st.winLoss p q
    pairScore := fun p q =>
      if p = player ∧ q = oppIdx
      then st.pairScore p q + r.score.get i else st.pairScore p q }

/-- One iteration of the outer statistics loop (`for i := 0; i < 2; i++`). -/
def updResult (st : Stats) (r : MResult) : Stats :=
  updSide (updSide st r 0) r 1

/-- The whole statistics aggregation over the result list. -/
def aggregate (results : List MResult) : Stats :=
  List.foldl updResult emptyStats results

/-- Lines 348-351 of `arbiter.go`: the per-player game count used as the
divisor of the average time: `rounds * (len(players) - 1) * 2`, overridden to
1 in single mode. -/
def numGamesPerPlayer (rounds nplayers : Nat) (single : Bool) : Nat :=
  if single then 1 else rounds * (nplayers - 1) * 2

/-- Lines 395-397 of `arbiter.go`: the field sequence of one quiet-mode
output line, in printf order: points, won, tied, lost, failed, average time
(`timeUsed / numGames`), max time. -/
def quietLine (st : Stats) (numGames : Nat) (p : Nat) : List ℚ :=
  [(st.totalPoints p : ℚ), (st.gamesWon p : ℚ), (st.gamesTied p : ℚ),
   (st.gamesLost p : ℚ), (st.gamesFailed p : ℚ),
   st.timeUsed p / (numGames : ℚ), st.timeMax p]

/-- Lines 393-398 of `arbiter.go`: quiet mode prints one line per player, in
original player-list order. -/
def quietOutput (nplayers : Nat) (st : Stats) (numGames : Nat) : List (List ℚ) :=
  (List.range nplayers).map (fun p => quietLine st numGames p)

/-- The `Less` method of `IntPairSlice` (lines 66-69), as a Bool-valued
reflexive total order suitable for sorting: lexicographic on
(first, second). -/
def ipLe (a b : Int × Int) : Bool :=
  decide (a.1 < b.1 ∨ (a.1 = b.1 ∧ a.2 ≤ b.2))

/-- Lines 402-408 of `arbiter.go`: build the pairs
`(totalPoints[i], -i)`, sort ascending by `Less`, and reverse. -/
def rankingPairs (n : Nat) (totalPoints : Nat → Nat) : List (Int × Int) :=
  (((List.range n).map (fun i => ((totalPoints i : Int), -(i : Int)))).mergeSort
    ipLe).reverse

/-- Lines 414-415 of `arbiter.go`: the ranking rows are printed in the order
of `rankingPairs`, each row showing player `p := -ip.second`. -/
def rankingOrder (n : Nat) (totalPoints : Nat → Nat) : List Nat :=
  (rankingPairs n totalPoints).map (fun ip => (-ip.2).toNat)

/-- A failed-flag reassignment applied to a match result, leaving every
other field alone; used to state that a quantity is independent of the
failed flags. -/
def setFailed (f : MResult → Pair Bool) (r : MResult) : MResult :=
  { r with failed := f r }

/-- A concrete match result in which player 0 failed but still finished with
the strictly higher score `3 - 1` (and, per the points policy, 0 points). -/
def demoResult : MResult :=
  { player := ⟨0, 1⟩, score := ⟨3, 1⟩, failed := ⟨true, false⟩,
    points := ⟨0, 1⟩, time := ⟨0, 0⟩ }

/-- A tiny concrete engine used to exercise the model: states are naturals,
the single legal move `0` increments the state, the game ends once the state
reaches 2, player `s % 2` moves at state `s`, and the final score is
`(3, 1)`. -/
def demoGame : GameDef Nat :=
  { over := fun s => decide (2 ≤ s)
    next := fun s => ⟨s % 2, Nat.mod_lt s (by omega)⟩
    listMoves := fun _ => [0]
    exec := fun s m => if m = 0 then some (s + 1) else none
    scores := fun _ => (3, 1)
    parseMove := fun str => if str = "a" then some 0 else none
    moveStr := fun _ => "a" }

/-- A degenerate engine whose initial state is already terminal, with final
score `(3, 1)`; matches on it run zero turns. -/
def overGame : GameDef Nat :=
  { over := fun _ => true
    next := fun s => ⟨s % 2, Nat.mod_lt s (by omega)⟩
    listMoves := fun _ => [0]
    exec := fun _ _ => some 9
    scores := fun _ => (3, 1)
    parseMove := fun _ => none
    moveStr := fun _ => "a" }

/-- A player-process oracle whose reads always deliver the line `a` instantly
and whose writes always succeed. -/
def okPlayer : PlayerEnv :=
  { spawnOk := true
    reads := fun _ => (0, some "a\n")
    writes := fun _ => true }

/-- Both slots spawn fine and behave (`okPlayer`). -/
def envOk : Pair PlayerEnv := ⟨okPlayer, okPlayer⟩

/-- Slot 0's command fails to spawn; slot 1 behaves. -/
def envFail0 : Pair PlayerEnv := ⟨{ okPlayer with spawnOk := false }, okPlayer⟩

/-- Slot 0 sends the unparsable line `b`; slot 1 behaves. -/
def envParse0 : Pair PlayerEnv :=
  ⟨{ okPlayer with reads := fun _ => (0, some "b\n") }, okPlayer⟩

/-- Slot 1's stdin rejects every write; both slots otherwise behave. -/
def envWriteFail1 : Pair PlayerEnv :=
  ⟨okPlayer, { okPlayer with writes := fun _ => false }⟩

/-- An engine that violates its contract: at state 0 it offers no legal moves
although the game is not over, and elsewhere it rejects the very move `5` it
listed. -/
def contractBreakGame : GameDef Nat :=
  { over := fun _ => false
    next := fun _ => 0
    listMoves := fun s => if s = 0 then [] else [5]
    exec := fun _ _ => none
    scores := fun _ => (0, 0)
    parseMove := fun _ => none
    moveStr := fun _ => "x" }

theorem Pair.get_set {α : Type} (x : Pair α) (i j : Fin 2) (a : α) :
    (x.set i a).get j = if j = i then a else x.get j := by
  fin_cases i <;> fin_cases j <;> simp [Pair.set, Pair.get]

theorem forwardStep_empty {σ : Type} (env : Pair PlayerEnv) (p : Fin 2)
    (s : MatchSt σ) : forwardStep env p s "" = s := by
  unfold forwardStep
  simp

theorem forwardStep_gs {σ : Type} (env : Pair PlayerEnv) (p : Fin 2)
    (s : MatchSt σ) (ms : String) : (forwardStep env p s ms).gs = s.gs := by
  unfold forwardStep
  split
  · dsimp only
    split <;> rfl
  · rfl

theorem forwardStep_over {σ : Type} (env : Pair PlayerEnv) (p : Fin 2)
    (s : MatchSt σ) (ms : String) : (forwardStep env p s ms).over = s.over := by
  unfold forwardStep
  split
  · dsimp only
    split <;> rfl
  · rfl

theorem forwardStep_failed_mono {σ : Type} (env : Pair PlayerEnv) (p : Fin 2)
    (s : MatchSt σ) (ms : String) (i : Fin 2) (h : s.failed.get i = true) :
    (forwardStep env p s ms).failed.get i = true := by
  unfold forwardStep
  split
  · dsimp only
    split
    · exact h
    · simp only [Pair.get_set]
      split <;> simp [h]
  · exact h

theorem Pair.get_set_true_mono (x : Pair Bool) (p i : Fin 2)
    (h : x.get i = true) : (x.set p true).get i = true := by
  rw [Pair.get_set]
  split <;> simp [h]

theorem stepRead_failed_mono {σ : Type} (g : GameDef σ) (env : Pair PlayerEnv)
    (p : Fin 2) (s : MatchSt σ) (i : Fin 2) (h : s.failed.get i = true) :
    ((stepRead g env p s).1).failed.get i = true := by
  unfold stepRead
  dsimp only
  split
  · exact Pair.get_set_true_mono _ _ _ h
  · split
    · exact Pair.get_set_true_mono _ _ _ h
    · split
      · exact Pair.get_set_true_mono _ _ _ h
      · exact h

theorem step_failed_mono {σ : Type} (g : GameDef σ) (env : Pair PlayerEnv)
    (rng : Nat → Nat) (s s2 : MatchSt σ) (i : Fin 2)
    (hs : step g env rng s = some s2) (h : s.failed.get i = true) :
    s2.failed.get i = true := by
  unfold step at hs
  dsimp only at hs
  split at hs
  · unfold stepFallback at hs
    dsimp only at hs
    split at hs
    · simp at hs
    · rcases he : g.exec s.gs ((g.listMoves s.gs).getD
          (rng s.rix % (g.listMoves s.gs).length) 0) with _ | gs2
      · rw [he] at hs; simp at hs
      · rw [he] at hs
        rw [show (Option.map (fun x => forwardStep env (g.next s.gs) x.1 x.2)
            (some ({ gs := gs2, over := g.over gs2, failed := s.failed,
                     time := s.time, readIx := s.readIx, writeIx := s.writeIx,
                     rix := s.rix + 1 },
                   g.moveStr ((g.listMoves s.gs).getD
                     (rng s.rix % (g.listMoves s.gs).length) 0)))) =
            some (forwardStep env (g.next s.gs)
              { gs := gs2, over := g.over gs2, failed := s.failed,
                time := s.time, readIx := s.readIx, writeIx := s.writeIx,
                rix := s.rix + 1 }
              (g.moveStr ((g.listMoves s.gs).getD
                (rng s.rix % (g.listMoves s.gs).length) 0))) from rfl] at hs
        rw [Option.some.injEq] at hs
        subst hs
        exact forwardStep_failed_mono _ _ _ _ _ h
  · simp only [Option.some.injEq] at hs
    subst hs
    exact forwardStep_failed_mono _ _ _ _ _ (stepRead_failed_mono _ _ _ _ _ h)

theorem loop_failed_mono {σ : Type} (g : GameDef σ) (env : Pair PlayerEnv)
    (rng : Nat → Nat) (fuel : Nat) (s s2 : MatchSt σ) (i : Fin 2)
    (hl : loop g env rng fuel s = some s2) (h : s.failed.get i = true) :
    s2.failed.get i = true := by
  induction fuel generalizing s with
  | zero => simp [loop] at hl
  | succ fuel ih =>
    unfold loop at hl
    split at hl
    · simp only [Option.some.injEq] at hl
      subst hl
      exact h
    · rcases hstep : step g env rng s with _ | s1
      · rw [hstep] at hl; simp at hl
      · rw [hstep] at hl
        rw [Option.some_bind] at hl
        exact ih s1 hl (step_failed_mono g env rng s s1 i hstep h)

/-- C2: on the turn a non-failed mover's failure is first detected (read
error, parse error or illegal move), the game state and cached terminal flag
are untouched, only that mover's failed flag is set, and no move is forwarded
(neither write cursor advances); on a turn whose mover is already failed, the
pseudo-randomly sampled legal move `moves[rand % len]` is applied on its
behalf; and a failed flag, once set, persists through the remaining loop. -/
theorem failure_fallback_policy {σ : Type} (g : GameDef σ) (env : Pair PlayerEnv)
    (rng : Nat → Nat) :
    (∀ (s : MatchSt σ) (p : Fin 2), g.next s.gs = p → s.failed.get p = false →
      (((env.get p).reads (s.readIx.get p)).2 = none ∨
       (∃ raw, ((env.get p).reads (s.readIx.get p)).2 = some raw ∧
         g.parseMove (raw.dropRight 1) = none) ∨
       (∃ raw m, ((env.get p).reads (s.readIx.get p)).2 = some raw ∧
         g.parseMove (raw.dropRight 1) = some m ∧ g.exec s.gs m = none)) →
      (step g env rng s).elim False (fun s2 =>
        s2.gs = s.gs ∧ s2.over = s.over ∧ s2.failed = s.failed.set p true ∧
        s2.writeIx = s.writeIx)) ∧
    (∀ (s : MatchSt σ) (p : Fin 2) (gs2 : σ), g.next s.gs = p →
      s.failed.get p = true → g.listMoves s.gs ≠ [] →
      g.exec s.gs ((g.listMoves s.gs).getD
        (rng s.rix % (g.listMoves s.gs).length) 0) = some gs2 →
      (step g env rng s).elim False (fun s2 =>
        s2.gs = gs2 ∧ s2.over = g.over gs2 ∧ s2.failed.get p = true)) ∧
    (∀ (fuel : Nat) (s s2 : MatchSt σ) (i : Fin 2),
      loop g env rng fuel s = some s2 → s.failed.get i = true →
      s2.failed.get i = true) := by
  refine ⟨?_, ?_, ?_⟩
  · intro s p hp hf hcond
    unfold step
    dsimp only
    rw [hp, hf]
    simp only [Bool.false_eq_true, if_false]
    unfold stepRead
    dsimp only
    rcases hcond with hn | ⟨raw, hraw, hparse⟩ | ⟨raw, m, hraw, hparse, hexec⟩
    · rw [hn]
      dsimp only
      rw [forwardStep_empty]
      exact ⟨rfl, rfl, rfl, rfl⟩
    · rw [hraw]
      dsimp only
      rw [hparse]
      dsimp only
      rw [forwardStep_empty]
      exact ⟨rfl, rfl, rfl, rfl⟩
    · rw [hraw]
      dsimp only
      rw [hparse]
      dsimp only
      rw [hexec]
      dsimp only
      rw [forwardStep_empty]
      exact ⟨rfl, rfl, rfl, rfl⟩
  · intro s p gs2 hp hf hne hexec
    unfold step
    dsimp only
    rw [hp, hf]
    simp only [if_true]
    unfold stepFallback
    dsimp only
    rw [if_neg (by simpa using hne), hexec]
    dsimp only
    exact ⟨forwardStep_gs _ _ _ _, forwardStep_over _ _ _ _,
      forwardStep_failed_mono _ _ _ _ _ hf⟩
  · intro fuel s s2 i hl h
    exact loop_failed_mono g env rng fuel s s2 i hl h

/-- Witness for C2: at a concrete state, a parse failure by slot 0 leaves the
game state alone and marks slot 0 failed; at a concrete state whose slot 0
already failed, the sampled move is applied; and a set failed flag survives a
concrete loop run. -/
theorem failure_fallback_policy_witness :
    (step demoGame envParse0 (fun _ => 0) (initState demoGame 0 envParse0)).elim
      False (fun s2 =>
        s2.gs = (initState demoGame 0 envParse0).gs ∧
        s2.over = (initState demoGame 0 envParse0).over ∧
        s2.failed = (initState demoGame 0 envParse0).failed.set 0 true ∧
        s2.writeIx = (initState demoGame 0 envParse0).writeIx) ∧
    (step demoGame envFail0 (fun _ => 0) (initState demoGame 0 envFail0)).elim
      False (fun s2 =>
        s2.gs = 1 ∧ s2.over = demoGame.over 1 ∧ s2.failed.get 0 = true) ∧
    (initState overGame 0 envFail0).failed.get 0 = true :=
  ⟨(failure_fallback_policy demoGame envParse0 (fun _ => 0)).1
      (initState demoGame 0 envParse0) 0 (by decide) (by decide)
      (Or.inr (Or.inl ⟨"b\n", by decide, by decide⟩)),
   (failure_fallback_policy demoGame envFail0 (fun _ => 0)).2.1
      (initState demoGame 0 envFail0) 0 1 (by decide) (by decide) (by decide)
      (by decide),
   (failure_fallback_policy overGame envFail0 (fun _ => 0)).2.2 1
      (initState overGame 0 envFail0) (initState overGame 0 envFail0) 0
      (by decide) (by decide)⟩

theorem opp_ne (p : Fin 2) : p ≠ opp p := by
  fin_cases p <;> decide

/-- C5: on a fallback turn (the mover already failed) in a non-terminal
state, an empty legal-move list, or a rejection by the engine of the sampled
move, aborts the whole process (`step` yields no successor state, so no
player is marked failed and the match does not continue); and when the
legal-move list is non-empty and the engine accepts every move it listed,
this abort branch cannot be taken. -/
theorem engine_contract_abort {σ : Type} (g : GameDef σ) (env : Pair PlayerEnv)
    (rng : Nat → Nat) (s : MatchSt σ) (p : Fin 2) (hp : g.next s.gs = p)
    (hf : s.failed.get p = true) (_hov : s.over = false) :
    (g.listMoves s.gs = [] → step g env rng s = none) ∧
    (g.exec s.gs ((g.listMoves s.gs).getD
        (rng s.rix % (g.listMoves s.gs).length) 0) = none →
      step g env rng s = none) ∧
    (g.listMoves s.gs ≠ [] →
      (∀ m, m ∈ g.listMoves s.gs → g.exec s.gs m ≠ none) →
      step g env rng s ≠ none) := by
  refine ⟨?_, ?_, ?_⟩
  · intro he
    unfold step
    dsimp only
    rw [hp, hf]
    simp only [if_true]
    unfold stepFallback
    dsimp only
    rw [he]
    simp
  · intro hexec
    unfold step
    dsimp only
    rw [hp, hf]
    simp only [if_true]
    unfold stepFallback
    dsimp only
    by_cases hlen : (g.listMoves s.gs).length = 0
    · rw [if_pos hlen]
      simp
    · rw [if_neg hlen]
      rw [hexec]
      simp
  · intro hne hacc
    unfold step
    dsimp only
    rw [hp, hf]
    simp only [if_true]
    unfold stepFallback
    dsimp only
    have hlen : (g.listMoves s.gs).length ≠ 0 := by simpa using hne
    rw [if_neg hlen]
    have hidx : rng s.rix % (g.listMoves s.gs).length < (g.listMoves s.gs).length :=
      Nat.mod_lt _ (Nat.pos_of_ne_zero hlen)
    have hmem : (g.listMoves s.gs).getD
        (rng s.rix % (g.listMoves s.gs).length) 0 ∈ g.listMoves s.gs := by
      rw [List.getD_eq_getElem _ _ hidx]
      exact List.getElem_mem hidx
    rcases he : g.exec s.gs ((g.listMoves s.gs).getD
        (rng s.rix % (g.listMoves s.gs).length) 0) with _ | gs2
    · exact absurd he (hacc _ hmem)
    · simp

/-- Witness for C5: the contract-breaking engine aborts the process both on
an empty legal-move list and on a rejected sampled move, while the demo
engine (which honours the contract) never reaches the abort. -/
theorem engine_contract_abort_witness :
    step contractBreakGame envFail0 (fun _ => 0)
      (initState contractBreakGame 0 envFail0) = none ∧
    step contractBreakGame envFail0 (fun _ => 0)
      (initState contractBreakGame 1 envFail0) = none ∧
    step demoGame envFail0 (fun _ => 0) (initState demoGame 0 envFail0) ≠ none :=
  ⟨(engine_contract_abort contractBreakGame envFail0 (fun _ => 0)
      (initState contractBreakGame 0 envFail0) 0 (by decide) (by decide)
      (by decide)).1 (by decide),
   (engine_contract_abort contractBreakGame envFail0 (fun _ => 0)
      (initState contractBreakGame 1 envFail0) 0 (by decide) (by decide)
      (by decide)).2.1 (by decide),
   (engine_contract_abort demoGame envFail0 (fun _ => 0)
      (initState demoGame 0 envFail0) 0 (by decide) (by decide)
      (by decide)).2.2 (by decide) (by decide)⟩

/-- C6: when the mover's move is read, parsed and applied, but forwarding it
to the opponent fails, the opponent (the recipient of the write) is marked
failed, the mover keeps its non-failed status, and the game state keeps the
applied move. -/
theorem send_failure_marks_recipient {σ : Type} (g : GameDef σ)
    (env : Pair PlayerEnv) (rng : Nat → Nat) (s : MatchSt σ) (p : Fin 2)
    (raw : String) (m : Nat) (gs2 : σ) (hp : g.next s.gs = p)
    (hf : s.failed.get p = false) (hfo : s.failed.get (opp p) = false)
    (hraw : ((env.get p).reads (s.readIx.get p)).2 = some raw)
    (hparse : g.parseMove (raw.dropRight 1) = some m)
    (hexec : g.exec s.gs m = some gs2)
    (hms : g.moveStr m ≠ "")
    (hov2 : g.over gs2 = false)
    (hw : (env.get (opp p)).writes (s.writeIx.get (opp p)) = false) :
    (step g env rng s).elim False (fun s2 =>
      s2.failed.get (opp p) = true ∧ s2.failed.get p = false ∧ s2.gs = gs2) := by
  unfold step
  dsimp only
  rw [hp, hf]
  simp only [Bool.false_eq_true, if_false]
  unfold stepRead
  dsimp only
  rw [hraw]
  dsimp only
  rw [hparse]
  dsimp only
  rw [hexec]
  dsimp only
  unfold forwardStep
  split
  · dsimp only
    rw [hw]
    simp only [Bool.false_eq_true, if_false]
    refine ⟨?_, ?_, rfl⟩
    · rw [Pair.get_set]
      simp
    · rw [Pair.get_set]
      rw [if_neg (opp_ne p)]
      exact hf
  · next hcond => exact absurd ⟨hms, hfo, hov2⟩ hcond

/-- Witness for C6: a concrete turn in which slot 0's legal move is applied
but cannot be forwarded to slot 1; slot 1 ends up failed, slot 0 does not,
and the state keeps the applied move. -/
theorem send_failure_marks_recipient_witness :
    (step demoGame envWriteFail1 (fun _ => 0)
        (initState demoGame 0 envWriteFail1)).elim False (fun s2 =>
      s2.failed.get (opp 0) = true ∧ s2.failed.get 0 = false ∧ s2.gs = 1) :=
  send_failure_marks_recipient demoGame envWriteFail1 (fun _ => 0)
    (initState demoGame 0 envWriteFail1) 0 "a\n" 0 1 (by decide) (by decide)
    (by decide) (by decide) (by decide) (by decide) (by decide) (by decide)
    (by decide)

theorem length_filter_ne (n i : Nat) (h : i < n) :
    ((List.range n).filter (fun j => i ≠ j)).length = n - 1 := by
  induction n with
  | zero => omega
  | succ k ih =>
    rw [List.range_succ, List.filter_append, List.length_append]
    by_cases hi : i = k
    · subst hi
      have h1 : (List.range i).filter (fun j => i ≠ j) = List.range i :=
        List.filter_eq_self.mpr (fun j hj => by
          have := List.mem_range.mp hj
          simp only [decide_eq_true_eq]
          omega)
      have h2 : List.filter (fun j => i ≠ j) [i] = [] := by simp
      rw [h1, h2]
      simp
    · have hik : i < k := by omega
      have h2 : List.filter (fun j => i ≠ j) [k] = [k] := by simp [hi]
      rw [ih hik, h2]
      simp only [List.length_singleton]
      omega

theorem inner_pairs_length (n : Nat) :
    ((List.range n).flatMap (fun i =>
      ((List.range n).filter (fun j => i ≠ j)).map (fun j => (i, j)))).length
      = n * (n - 1) := by
  rw [List.length_flatMap]
  have h1 : List.map (List.length ∘ fun i =>
        ((List.range n).filter (fun j => i ≠ j)).map (fun j => (i, j)))
        (List.range n)
      = List.map (fun _ => n - 1) (List.range n) :=
    List.map_congr_left (fun i hi => by
      simp only [Function.comp_apply, List.length_map]
      exact length_filter_ne n i (List.mem_range.mp hi))
  rw [h1, List.map_const', List.sum_replicate, List.length_range, smul_eq_mul]

theorem tournamentPairs_length (rounds n : Nat) :
    (tournamentPairs rounds n).length = rounds * (n * (n - 1)) := by
  unfold tournamentPairs
  rw [List.length_flatMap]
  have h1 : List.map (List.length ∘ fun _ =>
        (List.range n).flatMap (fun i =>
          ((List.range n).filter (fun j => i ≠ j)).map (fun j => (i, j))))
        (List.range rounds)
      = List.map (fun _ => n * (n - 1)) (List.range rounds) :=
    List.map_congr_left (fun r _ => by
      simp only [Function.comp_apply]
      exact inner_pairs_length n)
  rw [h1, List.map_const', List.sum_replicate, List.length_range, smul_eq_mul]

theorem tournamentPairs_mem (rounds n : Nat) (hr : 1 ≤ rounds) (i j : Nat) :
    (i, j) ∈ tournamentPairs rounds n ↔ i < n ∧ j < n ∧ i ≠ j := by
  unfold tournamentPairs
  simp only [List.mem_flatMap, List.mem_range, List.mem_map, List.mem_filter,
    decide_eq_true_eq, Prod.mk.injEq]
  constructor
  · rintro ⟨r, -, i2, hi2, j2, ⟨⟨hj2, hne⟩, hii, hjj⟩⟩
    subst hii
    subst hjj
    exact ⟨hi2, hj2, hne⟩
  · rintro ⟨hi, hj, hne⟩
    exact ⟨0, by omega, i, hi, j, ⟨⟨hj, hne⟩, rfl, rfl⟩⟩

theorem tournamentPairs_head (rounds n : Nat) (hr : 1 ≤ rounds) (hn : 2 ≤ n) :
    ∃ l, tournamentPairs rounds n = (0, 1) :: l := by
  obtain ⟨r, rfl⟩ : ∃ r, rounds = r + 1 := ⟨rounds - 1, by omega⟩
  obtain ⟨m, rfl⟩ : ∃ m, n = m + 2 := ⟨n - 2, by omega⟩
  unfold tournamentPairs
  simp only [List.range_succ_eq_map, List.flatMap_cons, List.map_cons,
    List.filter_cons, decide_not, List.cons_append, ne_eq, not_true_eq_false,
    decide_False, Bool.not_false, Bool.not_true, Nat.succ_eq_add_one,
    decide_True, decide_eq_true_eq, List.nil_append]
  simp only [show (0 : Nat) = 0 from rfl, show ¬(0 : Nat) = 0 + 1 by omega,
    if_true, if_false, decide_False, Bool.not_false]
  exact ⟨_, rfl⟩

/-- C4: a tournament over `n ≥ 2` players and `rounds ≥ 1` rounds, not in
single mode, runs exactly `rounds * n * (n-1)` matches; the enumerated
matchups are exactly the ordered pairs of distinct player indices (first
component moving first); and single mode runs exactly the one match
`(0, 1)`, the first enumerated pairing. -/
theorem tournament_schedule (rounds n : Nat) (hr : 1 ≤ rounds) (hn : 2 ≤ n) :
    (tournamentMatches rounds n false).length = rounds * n * (n - 1) ∧
    (∀ i j, (i, j) ∈ tournamentMatches rounds n false ↔
      i < n ∧ j < n ∧ i ≠ j) ∧
    tournamentMatches rounds n true = [(0, 1)] := by
  refine ⟨?_, ?_, ?_⟩
  · show (tournamentPairs rounds n).length = rounds * n * (n - 1)
    rw [tournamentPairs_length, Nat.mul_assoc]
  · intro i j
    show (i, j) ∈ tournamentPairs rounds n ↔ _
    exact tournamentPairs_mem rounds n hr i j
  · obtain ⟨l, hl⟩ := tournamentPairs_head rounds n hr hn
    show (tournamentPairs rounds n).take 1 = [(0, 1)]
    rw [hl]
    rfl

/-- Witness for C4: a 1-round, 2-player tournament has exactly 2 matches
that are the ordered distinct pairs, and single mode runs only `(0, 1)`. -/
theorem tournament_schedule_witness :
    (tournamentMatches 1 2 false).length = 1 * 2 * (2 - 1) ∧
    ((0, 1) ∈ tournamentMatches 1 2 false ↔ 0 < 2 ∧ 1 < 2 ∧ 0 ≠ 1) ∧
    tournamentMatches 1 2 true = [(0, 1)] :=
  ⟨(tournament_schedule 1 2 (by decide) (by decide)).1,
   (tournament_schedule 1 2 (by decide) (by decide)).2.1 0 1,
   (tournament_schedule 1 2 (by decide) (by decide)).2.2⟩

theorem updSide_stats_indep (st st' : Stats) (r : MResult) (fl : Pair Bool)
    (i : Fin 2) (hw : st.gamesWon = st'.gamesWon)
    (ht : st.gamesTied = st'.gamesTied) (hl : st.gamesLost = st'.gamesLost)
    (hm : st.winLoss = st'.winLoss) :
    (updSide st { r with failed := fl } i).gamesWon = (updSide st' r i).gamesWon ∧
    (updSide st { r with failed := fl } i).gamesTied = (updSide st' r i).gamesTied ∧
    (updSide st { r with failed := fl } i).gamesLost = (updSide st' r i).gamesLost ∧
    (updSide st { r with failed := fl } i).winLoss = (updSide st' r i).winLoss := by
  unfold updSide
  dsimp only
  rw [hw, ht, hl, hm]
  exact ⟨rfl, rfl, rfl, rfl⟩

theorem updResult_stats_indep (st st' : Stats) (r : MResult) (fl : Pair Bool)
    (hw : st.gamesWon = st'.gamesWon) (ht : st.gamesTied = st'.gamesTied)
    (hl : st.gamesLost = st'.gamesLost) (hm : st.winLoss = st'.winLoss) :
    (updResult st { r with failed := fl }).gamesWon = (updResult st' r).gamesWon ∧
    (updResult st { r with failed := fl }).gamesTied = (updResult st' r).gamesTied ∧
    (updResult st { r with failed := fl }).gamesLost = (updResult st' r).gamesLost ∧
    (updResult st { r with failed := fl }).winLoss = (updResult st' r).winLoss := by
  have h0 := updSide_stats_indep st st' r fl 0 hw ht hl hm
  exact updSide_stats_indep _ _ r fl 1 h0.1 h0.2.1 h0.2.2.1 h0.2.2.2

theorem foldl_stats_indep (f : MResult → Pair Bool) :
    ∀ (rs : List MResult) (st st' : Stats),
    st.gamesWon = st'.gamesWon → st.gamesTied = st'.gamesTied →
    st.gamesLost = st'.gamesLost → st.winLoss = st'.winLoss →
    (List.foldl updResult st (rs.map (setFailed f))).gamesWon =
      (List.foldl updResult st' rs).gamesWon ∧
    (List.foldl updResult st (rs.map (setFailed f))).gamesTied =
      (List.foldl updResult st' rs).gamesTied ∧
    (List.foldl updResult st (rs.map (setFailed f))).gamesLost =
      (List.foldl updResult st' rs).gamesLost ∧
    (List.foldl updResult st (rs.map (setFailed f))).winLoss =
      (List.foldl updResult st' rs).winLoss
  | [] => fun _ _ hw ht hl hm => ⟨hw, ht, hl, hm⟩
  | r :: rs => fun st st' hw ht hl hm => by
      simp only [List.map_cons, List.foldl_cons]
      have h := updResult_stats_indep st st' r (f r) hw ht hl hm
      exact foldl_stats_indep f rs _ _ h.1 h.2.1 h.2.2.1 h.2.2.2

/-- C9: the aggregator's win/tie/loss counts and head-to-head win matrix are
computed from the raw final scores alone — reassigning the failed flags of
every result arbitrarily leaves all of them unchanged; in particular a side
whose score strictly exceeds the opponent's gets its win and head-to-head
counters incremented with no regard to its failed flag, although (by the
match points policy) a failed side's competition points are 0. -/
theorem score_only_classification :
    (∀ (rs : List MResult) (f : MResult → Pair Bool),
      (aggregate (rs.map (setFailed f))).gamesWon = (aggregate rs).gamesWon ∧
      (aggregate (rs.map (setFailed f))).gamesTied = (aggregate rs).gamesTied ∧
      (aggregate (rs.map (setFailed f))).gamesLost = (aggregate rs).gamesLost ∧
      (aggregate (rs.map (setFailed f))).winLoss = (aggregate rs).winLoss) ∧
    (∀ (st : Stats) (r : MResult) (i : Fin 2),
      r.score.get i > r.score.get (opp i) →
      (updSide st r i).gamesWon (r.player.get i) =
        st.gamesWon (r.player.get i) + 1 ∧
      (updSide st r i).winLoss (r.player.get i) (r.player.get (opp i)) =
        st.winLoss (r.player.get i) (r.player.get (opp i)) + 1) ∧
    (∀ (fl : Pair Bool) (score : Pair Int) (i : Fin 2),
      fl.get i = true → (computePoints fl score).get i = 0) := by
  refine ⟨?_, ?_, ?_⟩
  · intro rs f
    exact foldl_stats_indep f rs emptyStats emptyStats rfl rfl rfl rfl
  · intro st r i h
    constructor
    · unfold updSide
      dsimp only
      rw [if_pos ⟨rfl, h⟩]
    · unfold updSide
      dsimp only
      rw [if_pos ⟨rfl, rfl, h⟩]
  · intro fl score i h
    fin_cases i <;> simp_all [computePoints, Pair.get]

/-- Witness for C9: a player that failed with the higher score `3 - 1` is
counted as winner in `gamesWon` and in the head-to-head matrix while its
competition points are 0. -/
theorem score_only_classification_witness :
    (updSide emptyStats demoResult 0).gamesWon (demoResult.player.get 0) =
      emptyStats.gamesWon (demoResult.player.get 0) + 1 ∧
    (updSide emptyStats demoResult 0).winLoss (demoResult.player.get 0)
        (demoResult.player.get (opp 0)) =
      emptyStats.winLoss (demoResult.player.get 0)
        (demoResult.player.get (opp 0)) + 1 ∧
    (computePoints demoResult.failed demoResult.score).get 0 = 0 :=
  ⟨(score_only_classification.2.1 emptyStats demoResult 0 (by decide)).1,
   (score_only_classification.2.1 emptyStats demoResult 0 (by decide)).2,
   score_only_classification.2.2 demoResult.failed demoResult.score 0 (by decide)⟩

/-- C8: quiet mode prints one line per player, in original player-list
order, and the line of player `p` holds in this exact order: total points,
wins, ties, losses, fails, average time and max time, where the average time
divides the cumulative elapsed time by the tournament-wide per-player game
count — `rounds * (n - 1) * 2`, or 1 in single mode. -/
theorem quiet_report (rounds n : Nat) (single : Bool) (st : Stats) (p : Nat)
    (hp : p < n) :
    (quietOutput n st (numGamesPerPlayer rounds n single)).length = n ∧
    (quietOutput n st (numGamesPerPlayer rounds n single)).getD p [] =
      [(st.totalPoints p : ℚ), (st.gamesWon p : ℚ), (st.gamesTied p : ℚ),
       (st.gamesLost p : ℚ), (st.gamesFailed p : ℚ),
       st.timeUsed p / (((if single then 1 else rounds * (n - 1) * 2) : Nat) : ℚ),
       st.timeMax p] := by
  constructor
  · simp [quietOutput]
  · have hlen : p < ((List.range n).map
        (fun q => quietLine st (numGamesPerPlayer rounds n single) q)).length := by
      simpa using hp
    rw [quietOutput, List.getD_eq_getElem _ _ hlen]
    simp [quietLine, numGamesPerPlayer]

/-- Witness for C8: the quiet report of a 1-round 2-player tournament with
zeroed statistics. -/
theorem quiet_report_witness :
    (quietOutput 2 emptyStats (numGamesPerPlayer 1 2 false)).length = 2 ∧
    (quietOutput 2 emptyStats (numGamesPerPlayer 1 2 false)).getD 0 [] =
      [(emptyStats.totalPoints 0 : ℚ), (emptyStats.gamesWon 0 : ℚ),
       (emptyStats.gamesTied 0 : ℚ), (emptyStats.gamesLost 0 : ℚ),
       (emptyStats.gamesFailed 0 : ℚ),
       emptyStats.timeUsed 0 / (((if false then 1 else 1 * (2 - 1) * 2) : Nat) : ℚ),
       emptyStats.timeMax 0] :=
  quiet_report 1 2 false emptyStats 0 (by decide)

theorem ipLe_trans (a b c : Int × Int) (hab : ipLe a b = true)
    (hbc : ipLe b c = true) : ipLe a c = true := by
  simp only [ipLe, decide_eq_true_eq] at *
  omega

theorem ipLe_total (a b : Int × Int) : (ipLe a b || ipLe b a) = true := by
  simp only [ipLe, Bool.or_eq_true, decide_eq_true_eq]
  omega

/-- C7: the verbose ranking row order is a permutation of the player list,
sorted by strictly descending total points with ties broken by strictly
ascending original player index. -/
theorem ranking_descending (n : Nat) (tp : Nat → Nat) :
    (rankingOrder n tp).Perm (List.range n) ∧
    List.Pairwise (fun p q => tp q < tp p ∨ (tp p = tp q ∧ p < q))
      (rankingOrder n tp) := by
  set f : Nat → Int × Int := fun i => ((tp i : Int), -(i : Int)) with hf
  set L0 : List (Int × Int) := (List.range n).map f with hL0
  set ms : List (Int × Int) := L0.mergeSort ipLe with hms
  have hperm : ms.Perm L0 := List.mergeSort_perm L0 ipLe
  have hsorted : List.Pairwise (fun a b => ipLe a b = true) ms :=
    List.sorted_mergeSort ipLe_trans ipLe_total L0
  have hinj : Function.Injective f := by
    intro a b hab
    have h2 := congrArg Prod.snd hab
    simpa [hf] using h2
  have hnodup0 : L0.Nodup := (List.nodup_range n).map hinj
  have hnodupms : ms.Nodup := hperm.symm.nodup hnodup0
  have hne : List.Pairwise (fun a b => a ≠ b) ms := hnodupms
  have hstrict : List.Pairwise
      (fun a b : Int × Int => a.1 < b.1 ∨ (a.1 = b.1 ∧ a.2 < b.2)) ms := by
    refine (hsorted.and hne).imp ?_
    rintro a b ⟨hle, hneq⟩
    simp only [ipLe, decide_eq_true_eq] at hle
    rcases hle with h | ⟨h1, h2⟩
    · exact Or.inl h
    · refine Or.inr ⟨h1, lt_of_le_of_ne h2 ?_⟩
      intro he
      exact hneq (Prod.ext_iff.mpr ⟨h1, he⟩)
  have hrev : List.Pairwise
      (fun a b : Int × Int => b.1 < a.1 ∨ (b.1 = a.1 ∧ b.2 < a.2)) ms.reverse :=
    List.pairwise_reverse.mpr hstrict
  have hmem : ∀ x ∈ ms.reverse, ∃ i, i < n ∧ x = f i := by
    intro x hx
    rw [List.mem_reverse] at hx
    have hx0 : x ∈ L0 := hperm.mem_iff.mp hx
    rw [hL0, List.mem_map] at hx0
    obtain ⟨i, hi, rfl⟩ := hx0
    exact ⟨i, List.mem_range.mp hi, rfl⟩
  have hgf : ∀ i : Nat, (-(f i).2).toNat = i := by
    intro i
    simp [hf]
  constructor
  · have h1 : (rankingOrder n tp) = (ms.reverse).map (fun ip => (-ip.2).toNat) := by
      rw [rankingOrder, rankingPairs, hms, hL0]
    have h2 : ms.reverse.Perm L0 := (List.reverse_perm ms).trans hperm
    have h3 : ((ms.reverse).map (fun ip => (-ip.2).toNat)).Perm
        (L0.map (fun ip => (-ip.2).toNat)) := h2.map _
    have h4 : L0.map (fun ip => (-ip.2).toNat) = List.range n := by
      rw [hL0, List.map_map]
      have h5 : ∀ i ∈ List.range n,
          ((fun ip : Int × Int => (-ip.2).toNat) ∘ f) i = i := fun i _ => hgf i
      rw [List.map_congr_left h5]
      simp
    rw [h1]
    rw [h4] at h3
    exact h3
  · have h1 : (rankingOrder n tp) = (ms.reverse).map (fun ip => (-ip.2).toNat) := by
      rw [rankingOrder, rankingPairs, hms, hL0]
    rw [h1, List.pairwise_map]
    refine hrev.imp_of_mem ?_
    intro a b ha hb hab
    obtain ⟨i, hi, rfl⟩ := hmem a ha
    obtain ⟨j, hj, rfl⟩ := hmem b hb
    rw [hgf i, hgf j]
    simp only [hf] at hab
    rcases hab with h | ⟨h1', h2'⟩
    · exact Or.inl (by exact_mod_cast h)
    · refine Or.inr ⟨by exact_mod_cast h1'.symm, ?_⟩
      have := neg_lt_neg_iff.mp h2'
      exact_mod_cast this

/-- C3 (code bug): a slot whose command cannot be spawned does start in the
failed state and the turn loop does run to completion on fallback moves, but
the shutdown loop then calls `fmt.Fprintln(w, "Quit")` on the nil
`io.WriteCloser` interface of the unspawned slot and panics, so on the
spawn-failure path the resources are *not* released and the whole process
crashes; on the all-spawned path each slot is released exactly once.  The
theorem exercises the failing input: with slot 0 unspawned, the loop
completes (the final state is terminal) yet `quitWriters` and hence the
whole of `runMatch` abort, while `quitWriters` on the all-spawned
environment releases `[0, 1]`, each exactly once. -/
theorem release_on_spawn_failure_bug :
    (initState demoGame 0 envFail0).failed.get 0 = true ∧
    Option.map (fun s => s.over)
      (loop demoGame envFail0 (fun _ => 0) 3 (initState demoGame 0 envFail0)) =
      some true ∧
    quitWriters envFail0 = none ∧
    runMatch demoGame 0 ⟨0, 1⟩ envFail0 (fun _ => 0) 3 = none ∧
    quitWriters envOk = some [0, 1] := by
  refine ⟨by decide, by decide, by decide, ?_, by decide⟩
  decide

/-- C10: the `Start` sentinel is written to slot 0's stdin iff slot 0's spawn
succeeded; slot 1 never receives `Start` (nor any other line during the
spawn loop), and when slot 0's spawn fails no sentinel at all is written. -/
theorem start_sentinel (env : Pair PlayerEnv) :
    (((0 : Fin 2), "Start") ∈ initTrace env ↔ env.fst.spawnOk = true) ∧
    (∀ str, ((1 : Fin 2), str) ∉ initTrace env) ∧
    (env.fst.spawnOk = false → initTrace env = []) := by
  have hfr : List.finRange 2 = [0, 1] := by decide
  unfold initTrace
  rw [hfr]
  by_cases h0 : env.fst.spawnOk <;> by_cases h1 : env.snd.spawnOk <;>
    simp [Pair.get, h0, h1]

/-- Witness for C10: with both slots spawned, `Start` goes to slot 0; with
slot 0 unspawned, the spawn loop writes nothing. -/
theorem start_sentinel_witness :
    ((0 : Fin 2), "Start") ∈ initTrace envOk ∧ initTrace envFail0 = [] :=
  ⟨(start_sentinel envOk).1.mpr (by decide),
   (start_sentinel envFail0).2.2 (by decide)⟩

/-- C1: every `Result` produced by `runMatch` carries, for each side `i`,
0 points when `failed[i]` is set, and otherwise exactly 1 point plus 1 more
iff that side's final score strictly exceeds the opponent's (so equal scores
award no bonus). -/
theorem points_policy {σ : Type} (g : GameDef σ) (start : σ) (players : Pair Nat)
    (env : Pair PlayerEnv) (rng : Nat → Nat) (fuel : Nat) (res : MResult)
    (h : runMatch g start players env rng fuel = some res) (i : Fin 2) :
    res.points.get i =
      (if res.failed.get i then 0
       else 1 + (if res.score.get i > res.score.get (opp i) then 1 else 0)) := by
  unfold runMatch at h
  rcases hl : loop g env rng fuel (initState g start env) with _ | s
  · rw [hl] at h; exact absurd h (by simp)
  · rw [hl] at h
    rcases hq : quitWriters env with _ | l
    · rw [hq] at h; exact absurd h (by simp)
    · rw [hq] at h
      simp only [Option.some.injEq] at h
      subst h
      fin_cases i <;> rfl

/-- Witness for C1: a concrete zero-turn match between two well-behaved
players yields the result `(3, 1)` with points `(2, 1)`, and `points_policy`
applies to it. -/
theorem points_policy_witness :
    runMatch overGame 0 ⟨0, 1⟩ envOk (fun _ => 0) 1 =
      some { player := ⟨0, 1⟩, score := ⟨3, 1⟩, failed := ⟨false, false⟩,
             points := ⟨2, 1⟩, time := ⟨0, 0⟩ } ∧
    ({ player := ⟨0, 1⟩, score := ⟨3, 1⟩, failed := ⟨false, false⟩,
       points := ⟨2, 1⟩, time := ⟨0, 0⟩ } : MResult).points.get 0 =
      (if ({ player := ⟨0, 1⟩, score := ⟨3, 1⟩, failed := ⟨false, false⟩,
             points := ⟨2, 1⟩, time := ⟨0, 0⟩ } : MResult).failed.get 0 then 0
       else 1 + (if ({ player := ⟨0, 1⟩, score := ⟨3, 1⟩, failed := ⟨false, false⟩,
                       points := ⟨2, 1⟩, time := ⟨0, 0⟩ } : MResult).score.get 0 >
                     ({ player := ⟨0, 1⟩, score := ⟨3, 1⟩, failed := ⟨false, false⟩,
                        points := ⟨2, 1⟩, time := ⟨0, 0⟩ } : MResult).score.get (opp 0)
                  then 1 else 0)) :=
  ⟨by decide, points_policy overGame 0 ⟨0, 1⟩ envOk (fun _ => 0) 1 _ (by decide) 0⟩

end Arbiter
